import Mathlib

/-!
Verification of the trader reliability validation and risk scoring engine.

The source is a TypeScript/Deno edge function (`validateTrader`,
`calculateMaxDrawdown`, `calculateTopCoins`), a PL/pgSQL stored function
(`calculate_evaluation_score` in `supabase/schema.sql`), and a client-side
recommendation scorer (`calculateTraderScore`).

Embedding conventions:
* JavaScript numbers that can be `NaN` are modelled as `Option ℚ`
  (`none` = `NaN`); operations propagate `none` exactly as JS arithmetic
  propagates `NaN`, and comparisons with `NaN` are `false` exactly as in JS.
* The string fields of a fill (`px`, `sz`, `closedPnl`, `fee`) are
  represented by the result of `parseFloat` on them: `some q` when the
  string parses to the number `q`, `none` when `parseFloat` yields `NaN`.
* `parseFloat(s) || 0` is `Option.getD · 0` (both `NaN` and `0` map to `0`).
* `Date.now()` is passed in as an explicit integer parameter `now`
  (epoch milliseconds), making the wall-clock read visible in the type.
* JavaScript's stable `Array.prototype.sort` is modelled by
  `List.insertionSort`, which is stable and sorts with respect to the
  comparator's non-strict order.
-/

/-- `parseFloat(s) || 0`: `NaN` (and `0` itself) become `0`. -/
def pfOr0 (x : Option ℚ) : ℚ := x.getD 0

/-- JS `x !== 0` on a possibly-`NaN` number: `NaN !== 0` is `true`. -/
def jsNeqZero (x : Option ℚ) : Bool :=
  match x with
  | none => true
  | some v => decide (v ≠ 0)

/-- JS `x > 0` on a possibly-`NaN` number: `NaN > 0` is `false`. -/
def jsGtZero (x : Option ℚ) : Bool :=
  match x with
  | none => false
  | some v => decide (0 < v)

/-- JS `x > c` on a possibly-`NaN` number: `NaN > c` is `false`. -/
def jsGtB (x : Option ℚ) (c : ℚ) : Bool :=
  match x with
  | none => false
  | some v => decide (c < v)

/-- JS multiplication with `NaN` propagation. -/
def jsMul (a b : Option ℚ) : Option ℚ :=
  match a, b with
  | some x, some y => some (x * y)
  | _, _ => none

/-- JS addition with `NaN` propagation. -/
def jsAdd (a b : Option ℚ) : Option ℚ :=
  match a, b with
  | some x, some y => some (x + y)
  | _, _ => none

/-- `Math.max` on two possibly-`NaN` numbers: any `NaN` gives `NaN`. -/
def jsMax2 (a b : Option ℚ) : Option ℚ :=
  match a, b with
  | some x, some y => some (max x y)
  | _, _ => none

/-- `Math.max(...l)` for a non-empty spread of possibly-`NaN` numbers. -/
def jsMaxList : List (Option ℚ) → Option ℚ
  | [] => none
  | x :: xs => xs.foldl jsMax2 x

/-- `Math.min(...l)` over plain integers (fill timestamps are integers). -/
def listMinInt : List ℤ → ℤ
  | [] => 0
  | [x] => x
  | x :: y :: xs => min x (listMinInt (y :: xs))

/-- Specification-side maximum of a list of rationals (head-seeded fold). -/
def listMaxQ : List ℚ → ℚ
  | [] => 0
  | x :: xs => xs.foldl max x

/-- One executed trade leg (interface `UserFill`).  The numeric string
fields hold the value of `parseFloat` applied to the source string,
`none` when that is `NaN`. -/
structure UserFill where
  coin : String
  px : Option ℚ
  sz : Option ℚ
  side : String
  time : ℤ
  closedPnl : Option ℚ
  fee : Option ℚ
deriving DecidableEq, Repr

/-- Per-instrument aggregate (interface `CoinPerformance`). -/
structure CoinPerformance where
  coin : String
  pnl : ℚ
  trades : ℕ
  winRate : ℚ
deriving DecidableEq, Repr

/-- Accumulator entry of the `coinStats` record in `calculateTopCoins`. -/
structure CoinStat where
  pnl : ℚ
  wins : ℕ
  total : ℕ
deriving DecidableEq, Repr

/-- Update of `coinStats[fill.coin]` for one closing fill: JS object keys
keep insertion order, so a fresh coin is appended at the end and an
existing coin is updated in place. -/
def updateStats : List (String × CoinStat) → String → ℚ → List (String × CoinStat)
  | [], coin, pnl => [(coin, ⟨pnl, if 0 < pnl then 1 else 0, 1⟩)]
  | (c, s) :: rest, coin, pnl =>
    if c = coin then
      (c, ⟨s.pnl + pnl, s.wins + (if 0 < pnl then 1 else 0), s.total + 1⟩) :: rest
    else
      (c, s) :: updateStats rest coin pnl

/-- The `for (const fill of fills)` loop of `calculateTopCoins`: fills whose
`parseFloat(closedPnl) || 0` is `0` are skipped (`continue`). -/
def buildCoinStats (fills : List UserFill) : List (String × CoinStat) :=
  fills.foldl
    (fun stats fill =>
      let pnl := pfOr0 fill.closedPnl
      if pnl = 0 then stats else updateStats stats fill.coin pnl)
    []

/-- Descending-by-`pnl` comparator of `calculateTopCoins`'s `sort`. -/
def pnlDesc (a b : CoinPerformance) : Prop := b.pnl ≤ a.pnl

instance : DecidableRel pnlDesc := fun a b => inferInstanceAs (Decidable (b.pnl ≤ a.pnl))

instance : IsTotal CoinPerformance pnlDesc := ⟨fun a b => le_total b.pnl a.pnl⟩

instance : IsTrans CoinPerformance pnlDesc := ⟨fun _ _ _ h h' => le_trans h' h⟩

/-- `calculateTopCoins(fills, limit)`: group closing fills by coin,
convert to `CoinPerformance`, sort descending by `pnl` (stable) and
truncate to `limit`.  The source's default for `limit` is `3`. -/
def calculateTopCoins (fills : List UserFill) (limit : ℕ) : List CoinPerformance :=
  let coinPerformances :=
    (buildCoinStats fills).map fun p =>
      { coin := p.1
        pnl := p.2.pnl
        trades := p.2.total
        winRate := if 0 < p.2.total then (p.2.wins : ℚ) / (p.2.total : ℚ) * 100 else 0 }
  (List.insertionSort pnlDesc coinPerformances).take limit

/-- Ascending-by-`time` comparator of `calculateMaxDrawdown`'s `sort`. -/
def timeAsc (a b : UserFill) : Prop := a.time ≤ b.time

instance : DecidableRel timeAsc := fun a b => inferInstanceAs (Decidable (a.time ≤ b.time))

instance : IsTotal UserFill timeAsc := ⟨fun a b => le_total a.time b.time⟩

instance : IsTrans UserFill timeAsc := ⟨fun _ _ _ h h' => le_trans h h'⟩

/-- `[...fills].sort((a, b) => a.time - b.time)`: a stable sort of a copy
of the input by timestamp ascending. -/
def sortByTime (fills : List UserFill) : List UserFill :=
  List.insertionSort timeAsc fills

/-- Loop state of `calculateMaxDrawdown`. -/
structure DDState where
  cumulativePnl : ℚ
  peak : ℚ
  maxDrawdown : ℚ
deriving DecidableEq, Repr

/-- One iteration of the drawdown loop. -/
def ddStep (s : DDState) (fill : UserFill) : DDState :=
  let pnl := pfOr0 fill.closedPnl
  let cum := s.cumulativePnl + pnl
  let peak := if s.peak < cum then cum else s.peak
  let md :=
    if 0 < peak then
      let drawdown := (peak - cum) / peak * 100
      if s.maxDrawdown < drawdown then drawdown else s.maxDrawdown
    else s.maxDrawdown
  ⟨cum, peak, md⟩

/-- `calculateMaxDrawdown(fills)`: sort a copy by time, fold the
cumulative-PnL/peak/max-drawdown loop; `0` for an empty array. -/
def calculateMaxDrawdown (fills : List UserFill) : ℚ :=
  if fills = [] then 0
  else ((sortByTime fills).foldl ddStep ⟨0, 0, 0⟩).maxDrawdown

/-- Validation metrics (field `metrics` of `TraderValidation`).
`avgTradeSize` and `largestWinPct` can be `NaN` in the source (when a
`sz`/`px`/`closedPnl` string fails to parse), hence `Option ℚ`. -/
structure TraderMetrics where
  accountAge : ℤ
  totalTrades : ℕ
  winRate : ℚ
  avgTradeSize : Option ℚ
  largestWinPct : Option ℚ
  diversification : ℕ
deriving DecidableEq, Repr

/-- The reason strings pushed by `validateTrader`, abstracted as tagged
values: each constructor corresponds to one template literal of the
source and carries the number interpolated into it. -/
inductive VReason where
  | noTradeHistory
  | accountTooNew (days : ℤ)
  | tooFewTrades (n : ℕ)
  | singleTradeDependency (pct : Option ℚ)
  | lowDiversification (n : ℕ)
  | suspiciouslyHighWinRate (pct : ℚ)
deriving DecidableEq, Repr

/-- Result of `validateTrader` (interface `TraderValidation` extended
with `maxDrawdown` and `topCoins`). -/
structure TraderValidation where
  isReliable : Bool
  reasons : List VReason
  maxDrawdown : ℚ
  topCoins : List CoinPerformance
  metrics : TraderMetrics
deriving DecidableEq, Repr

/-- `fills.filter((f) => parseFloat(f.closedPnl) !== 0)` — note that a
`NaN` `closedPnl` passes this filter, since `NaN !== 0` is `true`. -/
def closedTradesOf (fills : List UserFill) : List UserFill :=
  fills.filter fun f => jsNeqZero f.closedPnl

/-- `closedTrades.filter((f) => parseFloat(f.closedPnl) > 0)`. -/
def winsOf (fills : List UserFill) : List UserFill :=
  (closedTradesOf fills).filter fun f => jsGtZero f.closedPnl

/-- `winRate` metric of `validateTrader`. -/
def winRateOf (fills : List UserFill) : ℚ :=
  if 0 < (closedTradesOf fills).length then
    ((winsOf fills).length : ℚ) / ((closedTradesOf fills).length : ℚ) * 100
  else 0

/-- `diversification` metric: number of distinct coins. -/
def diversificationOf (fills : List UserFill) : ℕ :=
  ((fills.map fun f => f.coin).dedup).length

/-- `accountAge` metric: `Math.floor((now − Math.min(...timestamps)) / 86400000)`;
`now` is the `Date.now()` value, passed explicitly. -/
def accountAgeOf (now : ℤ) (fills : List UserFill) : ℤ :=
  Int.fdiv (now - listMinInt (fills.map fun f => f.time)) 86400000

/-- `largestWinPct` metric: guarded by `closedTrades.length > 0 &&
leaderboardPnl > 0`; otherwise it keeps its initial value `0`. -/
def largestWinPctOf (leaderboardPnl : ℚ) (fills : List UserFill) : Option ℚ :=
  if 0 < (closedTradesOf fills).length ∧ 0 < leaderboardPnl then
    (jsMaxList ((closedTradesOf fills).map fun f => f.closedPnl)).map
      fun m => m / leaderboardPnl * 100
  else some 0

/-- `avgTradeSize` metric: mean of `parseFloat(sz) * parseFloat(px)`
over all fills (`NaN` if any factor fails to parse). -/
def avgTradeSizeOf (fills : List UserFill) : Option ℚ :=
  ((fills.map fun f => jsMul f.sz f.px).foldl jsAdd (some 0)).map
    fun s => s / (fills.length : ℚ)

/-- `validateTrader(address, leaderboardPnl)` restricted to its pure
core: the fills the source fetches are a parameter, and the internal
`Date.now()` read is the parameter `now`.  The sequential
`isReliable = false` assignments and `reasons.push` calls of the source
are rendered as a conjunction of the check flags and a concatenation of
the per-check reason lists, in source order. -/
def validateTrader (fills : List UserFill) (leaderboardPnl : ℚ) (now : ℤ) :
    TraderValidation :=
  if fills = [] then
    { isReliable := false
      reasons := [VReason.noTradeHistory]
      maxDrawdown := 0
      topCoins := []
      metrics :=
        { accountAge := 0, totalTrades := fills.length, winRate := 0,
          avgTradeSize := some 0, largestWinPct := some 0, diversification := 0 } }
  else
    let accountAge := accountAgeOf now fills
    let winRate := winRateOf fills
    let diversification := diversificationOf fills
    let largestWinPct := largestWinPctOf leaderboardPnl fills
    let fail1 : Bool := decide (accountAge < 30)
    let fail2 : Bool := decide (fills.length < 50)
    let fail3 : Bool := jsGtB largestWinPct 40
    let fail4 : Bool := decide (diversification < 3)
    let flag5 : Bool := decide (90 < winRate)
    { isReliable := !(fail1 || fail2 || fail3 || fail4)
      reasons :=
        (if fail1 then [VReason.accountTooNew accountAge] else []) ++
        (if fail2 then [VReason.tooFewTrades fills.length] else []) ++
        (if fail3 then [VReason.singleTradeDependency largestWinPct] else []) ++
        (if fail4 then [VReason.lowDiversification diversification] else []) ++
        (if flag5 then [VReason.suspiciouslyHighWinRate winRate] else [])
      maxDrawdown := calculateMaxDrawdown fills
      topCoins := calculateTopCoins fills 3
      metrics :=
        { accountAge := accountAge
          totalTrades := fills.length
          winRate := winRate
          avgTradeSize := avgTradeSizeOf fills
          largestWinPct := largestWinPct
          diversification := diversification } }

/-- Round half away from zero to 2 decimals: PostgreSQL `ROUND(x, 2)`. -/
def round2 (x : ℚ) : ℚ :=
  if 0 ≤ x then (⌊x * 100 + 1 / 2⌋ : ℚ) / 100 else -((⌊-x * 100 + 1 / 2⌋ : ℚ) / 100)

/-- The metrics JSONB read by `calculate_evaluation_score`; `none` models
an absent key (the `COALESCE` defaults are applied in the function). -/
structure SqlScoreMetrics where
  roi_90d_pct : Option ℚ
  max_drawdown_pct : Option ℚ
  win_rate_pct : Option ℚ
  copiers : Option ℤ
  days_active : Option ℤ
deriving DecidableEq, Repr

/-- The three risk profiles of `get_default_criteria`. -/
inductive RiskProfile where
  | conservative
  | moderate
  | aggressive
deriving DecidableEq, Repr

/-- The criteria JSONB produced by `get_default_criteria` (numbers as in
`schema.sql`). -/
structure SelectionCriteria where
  roi_90d_range_pct : ℚ × ℚ
  max_drawdown_pct_lte : ℚ
  win_rate_pct_gte : ℚ
  min_days_active : ℤ
  leverage_range : ℚ × ℚ
  min_copiers : ℤ
deriving DecidableEq, Repr

/-- `get_default_criteria(p_risk_profile)` for the three known profiles. -/
def get_default_criteria : RiskProfile → SelectionCriteria
  | RiskProfile.conservative =>
    { roi_90d_range_pct := (10, 30), max_drawdown_pct_lte := 10,
      win_rate_pct_gte := 60, min_days_active := 180,
      leverage_range := (1, 2), min_copiers := 100 }
  | RiskProfile.moderate =>
    { roi_90d_range_pct := (20, 60), max_drawdown_pct_lte := 20,
      win_rate_pct_gte := 55, min_days_active := 90,
      leverage_range := (1, 3), min_copiers := 50 }
  | RiskProfile.aggressive =>
    { roi_90d_range_pct := (40, 200), max_drawdown_pct_lte := 35,
      win_rate_pct_gte := 50, min_days_active := 60,
      leverage_range := (1, 5), min_copiers := 20 }

/-- `calculate_evaluation_score(p_metrics, p_criteria)` from
`supabase/schema.sql`.  PostgreSQL's transcendental `LN` over `NUMERIC`
is abstracted as the parameter `ln` (only ever applied to
`GREATEST(v_copiers, 1)`); every theorem below holds for every `ln`.
Note that the function body never reads `p_criteria`. -/
def calculate_evaluation_score (ln : ℤ → ℚ) (p_metrics : SqlScoreMetrics)
    (p_criteria : SelectionCriteria) : ℚ :=
  let v_roi_90d := p_metrics.roi_90d_pct.getD 0
  let v_max_drawdown := p_metrics.max_drawdown_pct.getD 100
  let v_win_rate := p_metrics.win_rate_pct.getD 0
  let v_copiers := p_metrics.copiers.getD 0
  let v_days_active := p_metrics.days_active.getD 0
  let v_score : ℚ :=
    min v_roi_90d 100 * (30 / 100)
    + max (25 - v_max_drawdown * (1 / 2)) 0
    + v_win_rate * (20 / 100)
    + min (ln (max v_copiers 1) * 3) 15
    + min ((v_days_active : ℚ) / (365 / 10)) 10
  round2 (min v_score 100)

/-- The `latest_metrics` record read by the client-side
`calculateTraderScore`; `none` models an absent field, defaulted by `??`. -/
structure TsMetrics where
  roi_30d_pct : Option ℚ
  max_drawdown_pct : Option ℚ
  win_rate_pct : Option ℚ
  copiers : Option ℚ
  aum : Option ℚ
  volume : Option ℚ
  total_trades : Option ℚ
  days_active : Option ℚ
  pnl : Option ℚ
  is_reliable : Option Bool
deriving DecidableEq, Repr

/-- The reason strings pushed by `calculateTraderScore`, abstracted as
tagged values carrying the interpolated numbers. -/
inductive TsReason where
  | sinDatos
  | roiPct (roi : ℚ)
  | ddBajo (dd : ℚ)
  | ddPct (dd : ℚ)
  | wrPct (wr : ℚ)
  | copiersCount (c : ℚ)
  | altoVolumen
  | verificado
  | tradesCount (t : ℚ)
  | diasActivo (d : ℚ)
  | pnlThousands (p : ℚ)
deriving DecidableEq, Repr

/-- ROI block of `calculateTraderScore` (max 25 points). -/
def roiPoints (roi : ℚ) : ℚ × List TsReason :=
  if 50 ≤ roi ∧ roi < 200 then (25, [TsReason.roiPct roi])
  else if 20 ≤ roi ∧ roi < 50 then (20, [TsReason.roiPct roi])
  else if 10 ≤ roi then (15, [TsReason.roiPct roi])
  else if 0 < roi then (5, [])
  else (0, [])

/-- Drawdown block of `calculateTraderScore` (max 25 points). -/
def ddPoints (dd : ℚ) : ℚ × List TsReason :=
  if dd < 10 then (25, [TsReason.ddBajo dd])
  else if dd < 20 then (20, [TsReason.ddPct dd])
  else if dd < 30 then (10, [])
  else if dd < 40 then (5, [])
  else (0, [])

/-- Win-rate block of `calculateTraderScore` (max 20 points). -/
def wrPoints (wr : ℚ) : ℚ × List TsReason :=
  if 60 < wr then (20, [TsReason.wrPct wr])
  else if 50 < wr then (15, [TsReason.wrPct wr])
  else if 40 < wr then (10, [])
  else (0, [])

/-- Copiers block of `calculateTraderScore` (max 15 points). -/
def copiersPoints (c : ℚ) : ℚ × List TsReason :=
  if 100 ≤ c then (15, [TsReason.copiersCount c])
  else if 50 ≤ c then (10, [TsReason.copiersCount c])
  else if 10 ≤ c then (5, [])
  else (0, [])

/-- AUM/volume block of `calculateTraderScore` (max 15 points). -/
def volumePoints (aum volume : ℚ) : ℚ × List TsReason :=
  if 100000 ≤ aum ∨ 1000000 ≤ volume then (15, [TsReason.altoVolumen])
  else if 10000 ≤ aum ∨ 100000 ≤ volume then (10, [])
  else if 1000 ≤ aum ∨ 10000 ≤ volume then (5, [])
  else (0, [])

/-- `calculateTraderScore(trader)` from the client-side dashboard: an
additive point system over the trader's `latest_metrics`; `none` for
the whole record models a trader without metrics (`if (!metrics)`). -/
def calculateTraderScore (metrics : Option TsMetrics) : ℚ × List TsReason :=
  match metrics with
  | none => (0, [TsReason.sinDatos])
  | some m =>
    let roi := m.roi_30d_pct.getD 0
    let dd := m.max_drawdown_pct.getD 100
    let wr := m.win_rate_pct.getD 0
    let copiers := m.copiers.getD 0
    let aum := m.aum.getD 0
    let volume := m.volume.getD 0
    let trades := m.total_trades.getD 0
    let days := m.days_active.getD 0
    let pnl := m.pnl.getD 0
    let isReliable := m.is_reliable.getD false
    let r := roiPoints roi
    let d := ddPoints dd
    let w := wrPoints wr
    let c := copiersPoints copiers
    let v := volumePoints aum volume
    let reliablePts : ℚ × List TsReason :=
      if isReliable then (10, [TsReason.verificado]) else (0, [])
    let tradesPts : ℚ × List TsReason :=
      if 50 ≤ trades then (5, [TsReason.tradesCount trades]) else (0, [])
    let daysPts : ℚ × List TsReason :=
      if 30 ≤ days then (5, [TsReason.diasActivo days]) else (0, [])
    let pnlPts : ℚ × List TsReason :=
      if 10000 < pnl then (5, [TsReason.pnlThousands (pnl / 1000)]) else (0, [])
    (r.1 + d.1 + w.1 + c.1 + v.1 + reliablePts.1 + tradesPts.1 + daysPts.1 + pnlPts.1,
     r.2 ++ d.2 ++ w.2 ++ c.2 ++ v.2 ++ reliablePts.2 ++ tradesPts.2 ++ daysPts.2 ++ pnlPts.2)

/-- Modelled from the spec (§4.1 Fill Normalizer): the repository has no
normalization pass in code — this definition follows the spec's words
("a sorted-by-timestamp, filtered array containing only fills with valid
numeric `price`, `size`, `closedPnl`") and exists only to be compared
with what `validateTrader` actually consumes. -/
def specNormalizedFills (fills : List UserFill) : List UserFill :=
  sortByTime (fills.filter fun f => f.px.isSome && f.sz.isSome && f.closedPnl.isSome)

/-!  ## Helper lemmas  -/

/-- The running maximum drawdown never decreases across one loop step. -/
theorem ddStep_maxDrawdown_le (s : DDState) (f : UserFill) :
    s.maxDrawdown ≤ (ddStep s f).maxDrawdown := by
  unfold ddStep
  dsimp only
  split_ifs <;> linarith

/-- The running maximum drawdown never decreases across the whole loop. -/
theorem foldl_ddStep_maxDrawdown_le :
    ∀ (l : List UserFill) (s : DDState), s.maxDrawdown ≤ (l.foldl ddStep s).maxDrawdown
  | [], _ => le_refl _
  | f :: l, s =>
    le_trans (ddStep_maxDrawdown_le s f) (foldl_ddStep_maxDrawdown_le l (ddStep s f))

/-- `validateTrader` on a non-empty fill list, with the metric
computations named. -/
theorem validateTrader_of_ne (fills : List UserFill) (lb : ℚ) (now : ℤ)
    (hne : fills ≠ []) :
    validateTrader fills lb now =
      { isReliable := !(decide (accountAgeOf now fills < 30) || decide (fills.length < 50) ||
          jsGtB (largestWinPctOf lb fills) 40 || decide (diversificationOf fills < 3))
        reasons :=
          (if accountAgeOf now fills < 30 then
            [VReason.accountTooNew (accountAgeOf now fills)] else []) ++
          (if fills.length < 50 then [VReason.tooFewTrades fills.length] else []) ++
          (if jsGtB (largestWinPctOf lb fills) 40 then
            [VReason.singleTradeDependency (largestWinPctOf lb fills)] else []) ++
          (if diversificationOf fills < 3 then
            [VReason.lowDiversification (diversificationOf fills)] else []) ++
          (if 90 < winRateOf fills then
            [VReason.suspiciouslyHighWinRate (winRateOf fills)] else [])
        maxDrawdown := calculateMaxDrawdown fills
        topCoins := calculateTopCoins fills 3
        metrics :=
          { accountAge := accountAgeOf now fills
            totalTrades := fills.length
            winRate := winRateOf fills
            avgTradeSize := avgTradeSizeOf fills
            largestWinPct := largestWinPctOf lb fills
            diversification := diversificationOf fills } } := by
  simp only [validateTrader, if_neg hne, decide_eq_true_eq]

/-!  ## Claim theorems  -/

/-- C1 (amended): the maximum drawdown computed by `calculateMaxDrawdown`
is non-negative for every input fill array.  (The upper bound 100 claimed
by the spec does not hold; see the counterexample.) -/
theorem calculateMaxDrawdown_nonneg (fills : List UserFill) :
    0 ≤ calculateMaxDrawdown fills := by
  unfold calculateMaxDrawdown
  split
  · exact le_refl 0
  · exact foldl_ddStep_maxDrawdown_le (sortByTime fills) ⟨0, 0, 0⟩

/-- C1 (counterexample): a gain of 10 followed by a loss of 30 drives the
cumulative PnL to −20 below the peak 10, so the computed drawdown is
`(10 − (−20)) / 10 × 100 = 300`, which exceeds the claimed ceiling 100. -/
theorem calculateMaxDrawdown_can_exceed_100 :
    ¬ calculateMaxDrawdown
        [⟨"BTC", some 1, some 1, "B", 1, some 10, some 0⟩,
         ⟨"BTC", some 1, some 1, "A", 2, some (-30), some 0⟩] ≤ 100 := by
  rw [calculateMaxDrawdown, if_neg (List.cons_ne_nil _ _)]
  norm_num [sortByTime, List.insertionSort, List.orderedInsert, timeAsc, ddStep, pfOr0]

/-- C4: on an empty fill array `validateTrader` returns exactly the
terminal state: unreliable, the single reason "No trade history
available", zero drawdown, no top coins, and all metrics at their zero
defaults. -/
theorem validateTrader_empty (lb : ℚ) (now : ℤ) :
    validateTrader [] lb now =
      { isReliable := false
        reasons := [VReason.noTradeHistory]
        maxDrawdown := 0
        topCoins := []
        metrics :=
          { accountAge := 0, totalTrades := 0, winRate := 0,
            avgTradeSize := some 0, largestWinPct := some 0, diversification := 0 } } :=
  rfl

/-- C9 (amended): everything `validateTrader` computes except
`accountAge` (and the age-dependent reliability flag and reasons) is
independent of the internally read wall-clock value `now`; re-running on
the same fills and snapshot at the same instant gives the same output. -/
theorem validateTrader_now_independent (fills : List UserFill) (lb : ℚ) (n₁ n₂ : ℤ) :
    (validateTrader fills lb n₁).maxDrawdown = (validateTrader fills lb n₂).maxDrawdown ∧
    (validateTrader fills lb n₁).topCoins = (validateTrader fills lb n₂).topCoins ∧
    (validateTrader fills lb n₁).metrics.totalTrades
      = (validateTrader fills lb n₂).metrics.totalTrades ∧
    (validateTrader fills lb n₁).metrics.winRate
      = (validateTrader fills lb n₂).metrics.winRate ∧
    (validateTrader fills lb n₁).metrics.avgTradeSize
      = (validateTrader fills lb n₂).metrics.avgTradeSize ∧
    (validateTrader fills lb n₁).metrics.largestWinPct
      = (validateTrader fills lb n₂).metrics.largestWinPct ∧
    (validateTrader fills lb n₁).metrics.diversification
      = (validateTrader fills lb n₂).metrics.diversification := by
  by_cases h : fills = []
  · subst h
    exact ⟨rfl, rfl, rfl, rfl, rfl, rfl, rfl⟩
  · rw [validateTrader_of_ne fills lb n₁ h, validateTrader_of_ne fills lb n₂ h]
    exact ⟨rfl, rfl, rfl, rfl, rfl, rfl, rfl⟩

/-- C9 (counterexample): `validateTrader` reads the clock internally
(`Date.now()`), so the same fills and snapshot evaluated at two
different instants give different outputs — here the account age is 0
days at `now = 0` and 1 day at `now = 86400000`. -/
theorem validateTrader_depends_on_clock :
    validateTrader [⟨"BTC", some 1, some 1, "B", 0, some 5, some 0⟩] 100 0 ≠
      validateTrader [⟨"BTC", some 1, some 1, "B", 0, some 5, some 0⟩] 100 86400000 := by
  intro h
  have h1 : (validateTrader [⟨"BTC", some 1, some 1, "B", 0, some 5, some 0⟩]
      100 0).metrics.accountAge = 0 := by
    rw [validateTrader_of_ne _ _ _ (List.cons_ne_nil _ _)]
    norm_num [accountAgeOf, listMinInt]
  have h2 : (validateTrader [⟨"BTC", some 1, some 1, "B", 0, some 5, some 0⟩]
      100 86400000).metrics.accountAge = 1 := by
    rw [validateTrader_of_ne _ _ _ (List.cons_ne_nil _ _)]
    norm_num [accountAgeOf, listMinInt]
  rw [h, h2] at h1
  exact absurd h1 (by norm_num)

/-- C3: `calculate_evaluation_score` never reads its `p_criteria`
argument, so the score is the same fixed weighted sum (ROI 30%,
drawdown 25%, win rate 20%, copiers 15%, experience 10%) for every risk
profile — contradicting the repository's own methodology document,
which prescribes per-profile weights (drawdown 30/25/20, …). -/
theorem calculate_evaluation_score_ignores_criteria
    (ln : ℤ → ℚ) (m : SqlScoreMetrics) (c₁ c₂ : SelectionCriteria) :
    calculate_evaluation_score ln m c₁ = calculate_evaluation_score ln m c₂ := rfl

/-- Component bound: the ROI block awards between 0 and 25 points. -/
theorem roiPoints_bounds (roi : ℚ) : 0 ≤ (roiPoints roi).1 ∧ (roiPoints roi).1 ≤ 25 := by
  unfold roiPoints
  split_ifs <;> norm_num

/-- Component bound: the drawdown block awards between 0 and 25 points. -/
theorem ddPoints_bounds (dd : ℚ) : 0 ≤ (ddPoints dd).1 ∧ (ddPoints dd).1 ≤ 25 := by
  unfold ddPoints
  split_ifs <;> norm_num

/-- Component bound: the win-rate block awards between 0 and 20 points. -/
theorem wrPoints_bounds (wr : ℚ) : 0 ≤ (wrPoints wr).1 ∧ (wrPoints wr).1 ≤ 20 := by
  unfold wrPoints
  split_ifs <;> norm_num

/-- Component bound: the copiers block awards between 0 and 15 points. -/
theorem copiersPoints_bounds (c : ℚ) :
    0 ≤ (copiersPoints c).1 ∧ (copiersPoints c).1 ≤ 15 := by
  unfold copiersPoints
  split_ifs <;> norm_num

/-- Component bound: the AUM/volume block awards between 0 and 15 points. -/
theorem volumePoints_bounds (aum volume : ℚ) :
    0 ≤ (volumePoints aum volume).1 ∧ (volumePoints aum volume).1 ≤ 15 := by
  unfold volumePoints
  split_ifs <;> norm_num

/-- `ROUND(LEAST(x, 100), 2)` never exceeds 100. -/
theorem round2_le_100 (x : ℚ) (h : x ≤ 100) : round2 x ≤ 100 := by
  unfold round2
  split_ifs with hx
  · have h1 : (⌊x * 100 + 1 / 2⌋ : ℚ) ≤ x * 100 + 1 / 2 := Int.floor_le _
    have h2 : (⌊x * 100 + 1 / 2⌋ : ℚ) < 10001 := by linarith
    have h3 : ⌊x * 100 + 1 / 2⌋ < 10001 := by exact_mod_cast h2
    have h4 : ⌊x * 100 + 1 / 2⌋ ≤ 10000 := by omega
    have h5 : (⌊x * 100 + 1 / 2⌋ : ℚ) ≤ 10000 := by exact_mod_cast h4
    linarith
  · push_neg at hx
    have h1 : (0 : ℚ) ≤ -x * 100 + 1 / 2 := by linarith
    have h2 : 0 ≤ ⌊-x * 100 + 1 / 2⌋ := Int.floor_nonneg.mpr h1
    have h3 : (0 : ℚ) ≤ (⌊-x * 100 + 1 / 2⌋ : ℚ) := by exact_mod_cast h2
    linarith

/-- C5 (amended): the client-side recommendation score always lies in
[0, 125] — each block contributes a non-negative, bounded number of
points and there is no clamp at 100 — while the SQL evaluation score is
clamped above at 100 (`LEAST(v_score, 100)`), for every metrics input. -/
theorem traderScore_bounds :
    (∀ m : Option TsMetrics,
      0 ≤ (calculateTraderScore m).1 ∧ (calculateTraderScore m).1 ≤ 125) ∧
    (∀ (ln : ℤ → ℚ) (m : SqlScoreMetrics) (c : SelectionCriteria),
      calculate_evaluation_score ln m c ≤ 100) := by
  constructor
  · intro m
    match m with
    | none => norm_num [calculateTraderScore]
    | some m =>
      have hr := roiPoints_bounds (m.roi_30d_pct.getD 0)
      have hd := ddPoints_bounds (m.max_drawdown_pct.getD 100)
      have hw := wrPoints_bounds (m.win_rate_pct.getD 0)
      have hc := copiersPoints_bounds (m.copiers.getD 0)
      have hv := volumePoints_bounds (m.aum.getD 0) (m.volume.getD 0)
      simp only [calculateTraderScore]
      split_ifs <;> dsimp only <;>
        constructor <;>
        linarith [hr.1, hr.2, hd.1, hd.2, hw.1, hw.2, hc.1, hc.2, hv.1, hv.2]
  · intro ln m c
    exact round2_le_100 _ (min_le_right _ 100)

/-- C5 (counterexample): a trader meeting every bonus criterion (ROI 50,
drawdown 5, win rate 70, 100 copiers, AUM 100000, reliable, 50 trades,
30 days active, PnL 20000) scores 125, above the claimed ceiling 100. -/
theorem traderScore_can_exceed_100 :
    ¬ (calculateTraderScore
        (some ⟨some 50, some 5, some 70, some 100, some 100000, some 0,
               some 50, some 30, some 20000, some true⟩)).1 ≤ 100 := by
  norm_num [calculateTraderScore, roiPoints, ddPoints, wrPoints, copiersPoints, volumePoints]

/-- Membership in a conditional singleton block of `reasons`. -/
theorem mem_if_singleton {α : Type} (a r : α) (c : Prop) [Decidable c] :
    a ∈ (if c then [r] else []) ↔ c ∧ a = r := by
  split_ifs with h <;> simp [h]

/-- C2: on a non-empty fill array, `isReliable` is `true` exactly when
all four threshold checks pass (age ≥ 30 days, ≥ 50 trades, largest
single-trade PnL share ≤ 40 %, ≥ 3 coins); each failing check and only
it contributes its reason, and the win-rate > 90 % advisory reason is
appended without entering the reliability verdict. -/
theorem validateTrader_reliability_rules (fills : List UserFill) (lb : ℚ) (now : ℤ)
    (pct : ℚ) (hne : fills ≠ [])
    (hpct : (validateTrader fills lb now).metrics.largestWinPct = some pct) :
    ((validateTrader fills lb now).isReliable = true ↔
      (30 ≤ accountAgeOf now fills ∧ 50 ≤ fills.length ∧ pct ≤ 40 ∧
        3 ≤ diversificationOf fills)) ∧
    (VReason.accountTooNew (accountAgeOf now fills) ∈ (validateTrader fills lb now).reasons ↔
      accountAgeOf now fills < 30) ∧
    (VReason.tooFewTrades fills.length ∈ (validateTrader fills lb now).reasons ↔
      fills.length < 50) ∧
    (VReason.singleTradeDependency (some pct) ∈ (validateTrader fills lb now).reasons ↔
      40 < pct) ∧
    (VReason.lowDiversification (diversificationOf fills) ∈ (validateTrader fills lb now).reasons ↔
      diversificationOf fills < 3) ∧
    (VReason.suspiciouslyHighWinRate (winRateOf fills) ∈ (validateTrader fills lb now).reasons ↔
      90 < winRateOf fills) := by
  rw [validateTrader_of_ne fills lb now hne] at hpct ⊢
  dsimp only at hpct ⊢
  rw [hpct]
  simp only [jsGtB, List.mem_append, mem_if_singleton, decide_eq_true_eq,
    Bool.not_eq_true', Bool.or_eq_false_iff, decide_eq_false_iff_not, not_lt]
  simp [and_assoc]

/-- Folding `Math.max` over parseable PnL values equals the plain
rational maximum fold. -/
theorem foldl_jsMax2_map_some (l : List UserFill) (a : ℚ)
    (h : ∀ f ∈ l, f.closedPnl.isSome) :
    ((l.map fun f => f.closedPnl).foldl jsMax2 (some a))
      = some ((l.map fun f => (f.closedPnl).getD 0).foldl max a) := by
  induction l generalizing a with
  | nil => rfl
  | cons g gs ih =>
    obtain ⟨b, hb⟩ := Option.isSome_iff_exists.mp (h g (List.mem_cons_self g gs))
    simp only [List.map_cons, List.foldl_cons, hb, jsMax2, Option.getD_some]
    exact ih (max a b) fun f hf => h f (List.mem_cons_of_mem g hf)

/-- `Math.max(...pnls)` on a non-empty list of parseable PnL values is
the rational maximum. -/
theorem jsMaxList_eq_listMaxQ (l : List UserFill) (hne : l ≠ [])
    (h : ∀ f ∈ l, f.closedPnl.isSome) :
    jsMaxList (l.map fun f => f.closedPnl)
      = some (listMaxQ (l.map fun f => (f.closedPnl).getD 0)) := by
  cases l with
  | nil => exact absurd rfl hne
  | cons g gs =>
    obtain ⟨b, hb⟩ := Option.isSome_iff_exists.mp (h g (List.mem_cons_self g gs))
    simp only [List.map_cons, jsMaxList, listMaxQ, hb, Option.getD_some]
    exact foldl_jsMax2_map_some gs b fun f hf => h f (List.mem_cons_of_mem g hf)

/-- C8: for a non-empty fill array with parseable PnL values,
`largestWinPct` is `max(closedPnl over closing fills) / leaderboardPnl
× 100` exactly when `leaderboardPnl > 0` and a closing fill exists, and
`0` when the leaderboard PnL is zero/negative or no fill closed a
position — the division is never taken with a non-positive denominator,
and the (total) function never throws. -/
theorem validateTrader_largestWinPct_guard (fills : List UserFill) (lb : ℚ) (now : ℤ)
    (hne : fills ≠ []) (hvalid : ∀ f ∈ fills, f.closedPnl.isSome) :
    (0 < lb → closedTradesOf fills ≠ [] →
      (validateTrader fills lb now).metrics.largestWinPct
        = some (listMaxQ ((closedTradesOf fills).map fun f => (f.closedPnl).getD 0)
            / lb * 100)) ∧
    (lb ≤ 0 → (validateTrader fills lb now).metrics.largestWinPct = some 0) ∧
    (closedTradesOf fills = [] →
      (validateTrader fills lb now).metrics.largestWinPct = some 0) := by
  rw [validateTrader_of_ne fills lb now hne]
  dsimp only
  unfold largestWinPctOf
  have hsub : ∀ f ∈ closedTradesOf fills, f.closedPnl.isSome := fun f hf =>
    hvalid f (List.mem_of_mem_filter hf)
  refine ⟨?_, ?_, ?_⟩
  · intro hlb hct
    rw [if_pos ⟨List.length_pos.mpr hct, hlb⟩, jsMaxList_eq_listMaxQ _ hct hsub]
    rfl
  · intro hlb
    exact if_neg fun hc => absurd hc.2 (not_lt.mpr hlb)
  · intro hct
    exact if_neg fun hc => List.length_pos.mp hc.1 hct

/-- C10: `calculateMaxDrawdown` sorts a copy of its input by timestamp,
so on fill arrays with pairwise-distinct timestamps it is invariant
under permutation of the input order. -/
theorem calculateMaxDrawdown_perm_invariant (l₁ l₂ : List UserFill)
    (hp : l₁.Perm l₂) (hd : l₁.Pairwise fun a b => a.time ≠ b.time) :
    calculateMaxDrawdown l₁ = calculateMaxDrawdown l₂ := by
  by_cases h1 : l₁ = []
  · subst h1
    rw [hp.symm.eq_nil]
  · have h2 : l₂ ≠ [] := fun he => h1 (by rw [he] at hp; exact hp.eq_nil)
    have hsymm : ∀ {x y : UserFill}, x.time ≠ y.time → y.time ≠ x.time :=
      fun h => Ne.symm h
    have hperm : (sortByTime l₁).Perm (sortByTime l₂) :=
      (List.perm_insertionSort timeAsc l₁).trans
        (hp.trans (List.perm_insertionSort timeAsc l₂).symm)
    have hd₁ : (sortByTime l₁).Pairwise (fun a b => a.time ≠ b.time) :=
      ((List.perm_insertionSort timeAsc l₁).pairwise_iff hsymm).mpr hd
    have hd₂ : (sortByTime l₂).Pairwise (fun a b => a.time ≠ b.time) :=
      (hperm.pairwise_iff hsymm).mp hd₁
    have hstrict₁ : (sortByTime l₁).Pairwise (fun a b => a.time < b.time) :=
      ((List.sorted_insertionSort timeAsc l₁).and hd₁).imp
        fun h => lt_of_le_of_ne h.1 h.2
    have hstrict₂ : (sortByTime l₂).Pairwise (fun a b => a.time < b.time) :=
      ((List.sorted_insertionSort timeAsc l₂).and hd₂).imp
        fun h => lt_of_le_of_ne h.1 h.2
    haveI : IsAntisymm UserFill (fun a b => a.time < b.time) :=
      ⟨fun _ _ hab hba => absurd (hab.trans hba) (lt_irrefl _)⟩
    have hsort : sortByTime l₁ = sortByTime l₂ :=
      List.eq_of_perm_of_sorted hperm hstrict₁ hstrict₂
    unfold calculateMaxDrawdown
    rw [if_neg h1, if_neg h2, hsort]

/-- A key of the `coinStats` accumulator after one update is either the
inserted coin or a key that was already present. -/
theorem mem_updateStats : ∀ (stats : List (String × CoinStat)) (coin : String) (pnl : ℚ)
    (c : String) (s : CoinStat), (c, s) ∈ updateStats stats coin pnl →
    c = coin ∨ ∃ s', (c, s') ∈ stats
  | [], coin, pnl, c, s, h => by
    simp only [updateStats, List.mem_singleton, Prod.mk.injEq] at h
    exact Or.inl h.1
  | (pc, ps) :: rest, coin, pnl, c, s, h => by
    by_cases hc : pc = coin
    · rw [updateStats, if_pos hc] at h
      rcases List.mem_cons.mp h with h1 | h1
      · exact Or.inl ((congrArg Prod.fst h1).trans hc)
      · exact Or.inr ⟨s, List.mem_cons_of_mem _ h1⟩
    · rw [updateStats, if_neg hc] at h
      rcases List.mem_cons.mp h with h1 | h1
      · injection h1 with hfst hsnd
        rw [hfst]
        exact Or.inr ⟨ps, List.mem_cons_self _ _⟩
      · rcases mem_updateStats rest coin pnl c s h1 with h2 | ⟨s', h3⟩
        · exact Or.inl h2
        · exact Or.inr ⟨s', List.mem_cons_of_mem _ h3⟩

/-- Every key of the `coinStats` accumulator comes from a fill whose
parsed `closedPnl` is non-zero. -/
theorem mem_buildCoinStats_aux :
    ∀ (fills : List UserFill) (stats : List (String × CoinStat)) (c : String) (s : CoinStat),
      (c, s) ∈ fills.foldl
        (fun stats fill =>
          let pnl := pfOr0 fill.closedPnl
          if pnl = 0 then stats else updateStats stats fill.coin pnl) stats →
      (∃ s', (c, s') ∈ stats) ∨
        c ∈ (fills.filter fun f => decide (pfOr0 f.closedPnl ≠ 0)).map fun f => f.coin
  | [], stats, c, s, h => Or.inl ⟨s, h⟩
  | f :: fs, stats, c, s, h => by
    rw [List.foldl_cons] at h
    by_cases hp : pfOr0 f.closedPnl = 0
    · simp only [hp, if_pos] at h
      rcases mem_buildCoinStats_aux fs stats c s h with h1 | h1
      · exact Or.inl h1
      · refine Or.inr ?_
        rw [List.filter_cons_of_neg (by simp [hp])]
        exact h1
    · simp only [if_neg hp] at h
      rcases mem_buildCoinStats_aux fs (updateStats stats f.coin (pfOr0 f.closedPnl)) c s h
        with h1 | h1
      · obtain ⟨s', h2⟩ := h1
        rcases mem_updateStats _ _ _ _ _ h2 with h3 | ⟨s'', h4⟩
        · refine Or.inr ?_
          rw [List.filter_cons_of_pos (by simp [hp]), List.map_cons, h3]
          exact List.mem_cons_self _ _
        · exact Or.inl ⟨s'', h4⟩
      · refine Or.inr ?_
        rw [List.filter_cons_of_pos (by simp [hp]), List.map_cons]
        exact List.mem_cons_of_mem _ h1

/-- C7: `calculateTopCoins` returns at most `limit` groups, sorted
descending by accumulated `pnl`, every group keyed by the instrument of
a fill with non-zero parsed `closedPnl`; and on instruments A (pnl 100),
B (pnl 300), C (pnl −50) with limit 2 the output is exactly [B, A]. -/
theorem calculateTopCoins_spec :
    (∀ (fills : List UserFill) (limit : ℕ),
      (calculateTopCoins fills limit).length ≤ limit ∧
      (calculateTopCoins fills limit).Pairwise pnlDesc ∧
      ∀ p ∈ calculateTopCoins fills limit,
        p.coin ∈ (fills.filter fun f => decide (pfOr0 f.closedPnl ≠ 0)).map fun f => f.coin) ∧
    calculateTopCoins
      [⟨"A", some 1, some 1, "B", 1, some 100, some 0⟩,
       ⟨"B", some 1, some 1, "B", 2, some 300, some 0⟩,
       ⟨"C", some 1, some 1, "B", 3, some (-50), some 0⟩] 2
      = [⟨"B", 300, 1, 100⟩, ⟨"A", 100, 1, 100⟩] := by
  constructor
  · intro fills limit
    refine ⟨List.length_take_le limit _, ?_, ?_⟩
    · exact List.Pairwise.sublist (List.take_sublist limit _)
        (List.sorted_insertionSort pnlDesc _)
    · intro p hp
      have hp1 : p ∈ List.insertionSort pnlDesc
          ((buildCoinStats fills).map fun q =>
            ({ coin := q.1, pnl := q.2.pnl, trades := q.2.total,
               winRate := if 0 < q.2.total then (q.2.wins : ℚ) / (q.2.total : ℚ) * 100
                 else 0 } : CoinPerformance)) := List.take_subset limit _ hp
      have hp2 := (List.perm_insertionSort pnlDesc _).mem_iff.mp hp1
      obtain ⟨entry, hentry, hpe⟩ := List.mem_map.mp hp2
      rcases mem_buildCoinStats_aux fills [] entry.1 entry.2 hentry with ⟨s', h⟩ | h
      · exact absurd h (List.not_mem_nil _)
      · rw [← hpe]
        exact h
  · norm_num [calculateTopCoins, buildCoinStats, updateStats, pfOr0,
      List.insertionSort, List.orderedInsert, pnlDesc]

/-- C6 (amended): no normalization pass exists — `validateTrader`
consumes the raw array directly: `totalTrades` counts every raw fill and
`diversification` counts the coins of every raw fill, malformed or not;
a fill whose `closedPnl` parses to nothing (or to 0) merely contributes
nothing to the top-coin aggregation. -/
theorem validateTrader_no_normalization (fills : List UserFill) (lb : ℚ) (now : ℤ) :
    (validateTrader fills lb now).metrics.totalTrades = fills.length ∧
    (validateTrader fills lb now).metrics.diversification
      = ((fills.map fun f => f.coin).dedup).length ∧
    (∀ f : UserFill, pfOr0 f.closedPnl = 0 →
      ∀ limit, calculateTopCoins (f :: fills) limit = calculateTopCoins fills limit) := by
  refine ⟨?_, ?_, ?_⟩
  · by_cases h : fills = []
    · subst h; rfl
    · rw [validateTrader_of_ne fills lb now h]
  · by_cases h : fills = []
    · subst h; rfl
    · rw [validateTrader_of_ne fills lb now h]; rfl
  · intro f hf limit
    simp [calculateTopCoins, buildCoinStats, hf]

/-- C6 (counterexample): with one well-formed fill and one fill whose
`sz` and `closedPnl` fail to parse, `validateTrader` reports
`totalTrades = 2` while the spec's normalizer would keep only 1 fill —
the malformed fill does contribute to `totalTrades`. -/
theorem validateTrader_counts_malformed :
    (validateTrader
      [⟨"BTC", some 1, some 2, "B", 0, some 5, some 0⟩,
       ⟨"ETH", some 1, none, "B", 1, none, some 0⟩] 100 0).metrics.totalTrades
      ≠ (specNormalizedFills
          [⟨"BTC", some 1, some 2, "B", 0, some 5, some 0⟩,
           ⟨"ETH", some 1, none, "B", 1, none, some 0⟩]).length := by
  rw [validateTrader_of_ne _ _ _ (List.cons_ne_nil _ _)]
  norm_num [specNormalizedFills, sortByTime, List.filter, List.insertionSort,
    List.orderedInsert]

/-- C2 (witness): the reliability characterization applied to one
concrete fill with PnL 5 against a leaderboard PnL of 100. -/
theorem validateTrader_reliability_rules_witness :
    (([⟨"BTC", some 1, some 1, "B", 0, some 5, some 0⟩] : List UserFill) ≠ []) ∧
    (validateTrader [⟨"BTC", some 1, some 1, "B", 0, some 5, some 0⟩]
      100 0).metrics.largestWinPct = some 5 ∧
    ((validateTrader [⟨"BTC", some 1, some 1, "B", 0, some 5, some 0⟩] 100 0).isReliable = true ↔
      (30 ≤ accountAgeOf 0 [⟨"BTC", some 1, some 1, "B", 0, some 5, some 0⟩] ∧
        50 ≤ ([⟨"BTC", some 1, some 1, "B", 0, some 5, some 0⟩] : List UserFill).length ∧
        (5 : ℚ) ≤ 40 ∧
        3 ≤ diversificationOf [⟨"BTC", some 1, some 1, "B", 0, some 5, some 0⟩])) := by
  have hpct : (validateTrader [⟨"BTC", some 1, some 1, "B", 0, some 5, some 0⟩]
      100 0).metrics.largestWinPct = some 5 := by
    rw [validateTrader_of_ne _ _ _ (List.cons_ne_nil _ _)]
    norm_num [largestWinPctOf, closedTradesOf, jsNeqZero, jsMaxList, List.filter]
  exact ⟨List.cons_ne_nil _ _, hpct,
    (validateTrader_reliability_rules _ 100 0 5 (List.cons_ne_nil _ _) hpct).1⟩

/-- C6 (witness): the no-normalization theorem applied concretely — a
fill with unparseable `closedPnl` leaves the top-coin aggregation
unchanged. -/
theorem validateTrader_no_normalization_witness :
    pfOr0 (none : Option ℚ) = 0 ∧
    calculateTopCoins
      (⟨"ETH", some 1, some 1, "B", 1, none, some 0⟩ ::
        [⟨"BTC", some 1, some 2, "B", 0, some 5, some 0⟩]) 3
      = calculateTopCoins [⟨"BTC", some 1, some 2, "B", 0, some 5, some 0⟩] 3 :=
  ⟨rfl, (validateTrader_no_normalization
      [⟨"BTC", some 1, some 2, "B", 0, some 5, some 0⟩] 100 0).2.2
    ⟨"ETH", some 1, some 1, "B", 1, none, some 0⟩ rfl 3⟩

/-- C7 (witness): the top entry of the A/B/C example is in the output,
and its instrument comes from a fill with non-zero closed PnL. -/
theorem calculateTopCoins_spec_witness :
    (⟨"B", 300, 1, 100⟩ : CoinPerformance) ∈ calculateTopCoins
      [⟨"A", some 1, some 1, "B", 1, some 100, some 0⟩,
       ⟨"B", some 1, some 1, "B", 2, some 300, some 0⟩,
       ⟨"C", some 1, some 1, "B", 3, some (-50), some 0⟩] 2 ∧
    ("B" : String) ∈ (([⟨"A", some 1, some 1, "B", 1, some 100, some 0⟩,
       ⟨"B", some 1, some 1, "B", 2, some 300, some 0⟩,
       ⟨"C", some 1, some 1, "B", 3, some (-50), some 0⟩] : List UserFill).filter
         fun f => decide (pfOr0 f.closedPnl ≠ 0)).map fun f => f.coin := by
  have hmem : (⟨"B", 300, 1, 100⟩ : CoinPerformance) ∈ calculateTopCoins
      [⟨"A", some 1, some 1, "B", 1, some 100, some 0⟩,
       ⟨"B", some 1, some 1, "B", 2, some 300, some 0⟩,
       ⟨"C", some 1, some 1, "B", 3, some (-50), some 0⟩] 2 := by
    rw [calculateTopCoins_spec.2]
    exact List.mem_cons_self _ _
  exact ⟨hmem, (calculateTopCoins_spec.1 _ 2).2.2 _ hmem⟩

/-- C8 (witness): the guarded formula evaluated on one closing fill with
PnL 5 and leaderboard PnL 100. -/
theorem validateTrader_largestWinPct_guard_witness :
    (0 : ℚ) < 100 ∧
    closedTradesOf [⟨"BTC", some 1, some 1, "B", 0, some 5, some 0⟩] ≠ [] ∧
    (validateTrader [⟨"BTC", some 1, some 1, "B", 0, some 5, some 0⟩]
        100 0).metrics.largestWinPct
      = some (listMaxQ ((closedTradesOf
          [⟨"BTC", some 1, some 1, "B", 0, some 5, some 0⟩]).map
            fun g => (g.closedPnl).getD 0) / 100 * 100) := by
  have hct : closedTradesOf [⟨"BTC", some 1, some 1, "B", 0, some 5, some 0⟩] ≠ [] := by
    norm_num [closedTradesOf, List.filter, jsNeqZero]
  exact ⟨by norm_num, hct,
    (validateTrader_largestWinPct_guard _ 100 0 (List.cons_ne_nil _ _)
      (by simp)).1 (by norm_num) hct⟩

/-- C10 (witness): order-insensitivity on a concrete two-fill array with
distinct timestamps, in both orders. -/
theorem calculateMaxDrawdown_perm_invariant_witness :
    ([⟨"BTC", some 1, some 1, "B", 1, some 10, some 0⟩,
      ⟨"ETH", some 1, some 1, "A", 2, some (-30), some 0⟩] : List UserFill).Perm
      [⟨"ETH", some 1, some 1, "A", 2, some (-30), some 0⟩,
       ⟨"BTC", some 1, some 1, "B", 1, some 10, some 0⟩] ∧
    ([⟨"BTC", some 1, some 1, "B", 1, some 10, some 0⟩,
      ⟨"ETH", some 1, some 1, "A", 2, some (-30), some 0⟩] : List UserFill).Pairwise
      (fun a b => a.time ≠ b.time) ∧
    calculateMaxDrawdown
      [⟨"BTC", some 1, some 1, "B", 1, some 10, some 0⟩,
       ⟨"ETH", some 1, some 1, "A", 2, some (-30), some 0⟩]
      = calculateMaxDrawdown
        [⟨"ETH", some 1, some 1, "A", 2, some (-30), some 0⟩,
         ⟨"BTC", some 1, some 1, "B", 1, some 10, some 0⟩] := by
  have hp : ([⟨"BTC", some 1, some 1, "B", 1, some 10, some 0⟩,
      ⟨"ETH", some 1, some 1, "A", 2, some (-30), some 0⟩] : List UserFill).Perm
      [⟨"ETH", some 1, some 1, "A", 2, some (-30), some 0⟩,
       ⟨"BTC", some 1, some 1, "B", 1, some 10, some 0⟩] :=
    List.Perm.swap _ _ []
  have hd : ([⟨"BTC", some 1, some 1, "B", 1, some 10, some 0⟩,
      ⟨"ETH", some 1, some 1, "A", 2, some (-30), some 0⟩] : List UserFill).Pairwise
      (fun a b => a.time ≠ b.time) := by
    norm_num [List.pairwise_cons]
  exact ⟨hp, hd, calculateMaxDrawdown_perm_invariant _ _ hp hd⟩
